import Mathlib

/-!
Shallow embedding of the LedgerLite expense tracker (src/src/App.tsx) and
verification of its specification claims.

Modelling conventions:
  - JS numbers (currency amounts, the fields `amount` and `target_amount`)
    are modelled as rationals `ℚ`; the DB schema stores DECIMAL(12,2).
  - Timestamps (`date`, `created_at`) are ISO-8601 strings; ISO strings
    compare chronologically under lexicographic string order, so the
    `LinearOrder String` instance models the DB ordering.
  - Remote calls (supabase) are external collaborators: each handler is
    embedded as a pure state-transition function taking the remote
    response (`Except Unit _`, where `.error` models a thrown/returned
    error) as an explicit argument.
  - `setX(...)` state updates become functional record updates on
    `AppState`.
-/

/-- The transaction type tag: `type: 'income' | 'expense'` in App.tsx. -/
inductive TxType where
  | income : TxType
  | expense : TxType
deriving DecidableEq, Repr

/-- The `Transaction` interface of App.tsx (lines 4-12). `created_at` is
optional in the TS interface only because insert payloads omit it; every
row held in state came from the server, where the schema assigns it a
default, so it is modelled as present. -/
structure Transaction where
  id : String
  description : String
  amount : ℚ
  category : String
  date : String
  type : TxType
  created_at : String
deriving DecidableEq, Repr

/-- The `SavingGoal` interface of App.tsx (lines 14-19). -/
structure SavingGoal where
  id : String
  name : String
  target_amount : ℚ
  created_at : String
deriving DecidableEq, Repr

/-- The accumulator shape `{ income: 0, expense: 0 }` of the `totals`
reduce in App.tsx (line 187). -/
structure Totals where
  income : ℚ
  expense : ℚ
deriving DecidableEq, Repr

/-- One step of the `totals` reduce callback (App.tsx lines 183-187):
`if (current.type === 'income') acc.income += current.amount; else
acc.expense += current.amount`. -/
def totalsStep (acc : Totals) (current : Transaction) : Totals :=
  if current.type = TxType.income then
    { acc with income := acc.income + current.amount }
  else
    { acc with expense := acc.expense + current.amount }

/-- `totals` (App.tsx lines 183-187): a left fold of `totalsStep` over the
transaction list starting from `{income: 0, expense: 0}` (JS
`Array.prototype.reduce` folds left). -/
def totals (ts : List Transaction) : Totals :=
  ts.foldl totalsStep { income := 0, expense := 0 }

/-- `balance` (App.tsx line 189): `totals.income - totals.expense`. -/
def balance (ts : List Transaction) : ℚ :=
  (totals ts).income - (totals ts).expense

/-- Amounts of the income-typed transactions of a list. -/
def incomeAmounts (ts : List Transaction) : List ℚ :=
  (ts.filter (fun t => t.type = TxType.income)).map Transaction.amount

/-- Amounts of the expense-typed transactions of a list. -/
def expenseAmounts (ts : List Transaction) : List ℚ :=
  (ts.filter (fun t => t.type = TxType.expense)).map Transaction.amount

lemma totals_foldl_general (ts : List Transaction) (acc : Totals) :
    ts.foldl totalsStep acc =
      { income := acc.income + (incomeAmounts ts).sum,
        expense := acc.expense + (expenseAmounts ts).sum } := by
  induction ts generalizing acc with
  | nil => simp [incomeAmounts, expenseAmounts]
  | cons t rest ih =>
    rcases h : t.type with _ | _ <;>
      simp [List.foldl_cons, totalsStep, h, ih, incomeAmounts, expenseAmounts,
        List.filter_cons, add_assoc]

/-- C1: for every list of transactions, `totals` produces income equal to
the sum of amounts of income-typed transactions and expense equal to the
sum of amounts of expense-typed transactions; `balance` equals income
minus expense; and on the empty list both fields are 0. -/
theorem totals_aggregates_by_type (ts : List Transaction) :
    (totals ts).income = (incomeAmounts ts).sum ∧
    (totals ts).expense = (expenseAmounts ts).sum ∧
    balance ts = (totals ts).income - (totals ts).expense ∧
    totals [] = { income := 0, expense := 0 } := by
  refine ⟨?_, ?_, rfl, rfl⟩ <;> simp [totals, totals_foldl_general]

/-- The `progress` const of the goal render (App.tsx line 272):
`Math.min((balance / goal.target_amount) * 100, 100)`. -/
def progressRaw (bal target : ℚ) : ℚ :=
  min (bal / target * 100) 100

/-- The rendered progress-bar width (App.tsx line 293):
`progress < 0 ? 0 : progress`, the displayed (fully clamped) progress. -/
def progressWidth (bal target : ℚ) : ℚ :=
  if progressRaw bal target < 0 then 0 else progressRaw bal target

/-- `isAchieved` (App.tsx line 273): `progress >= 100`. -/
def isAchieved (bal target : ℚ) : Bool :=
  100 ≤ progressRaw bal target

/-- C2: for every goal with positive target and every balance, the
displayed goal progress (the width after both the `Math.min` clamp and
the negative-width guard) lies in [0, 100]. -/
theorem progress_clamped_to_unit_range (bal target : ℚ) (h : 0 < target) :
    0 ≤ progressWidth bal target ∧ progressWidth bal target ≤ 100 := by
  constructor
  · unfold progressWidth
    split
    · exact le_refl 0
    · next hn => exact le_of_not_lt hn
  · unfold progressWidth
    split
    · norm_num
    · exact min_le_right _ _

/-- C2 witness: instantiated at balance -50 and target 200 (a negative
balance still displays inside [0, 100]). -/
theorem progress_clamped_to_unit_range_witness :
    (0 : ℚ) < 200 ∧
      (0 ≤ progressWidth (-50) 200 ∧ progressWidth (-50) 200 ≤ 100) :=
  ⟨by norm_num, progress_clamped_to_unit_range (-50) 200 (by norm_num)⟩

/-- C6: for every goal with positive target and every balance, the goal is
marked achieved exactly when the balance reaches the target. -/
theorem isAchieved_iff_balance_reaches_target (bal target : ℚ)
    (h : 0 < target) :
    isAchieved bal target = true ↔ target ≤ bal := by
  unfold isAchieved progressRaw
  rw [decide_eq_true_iff, le_min_iff]
  constructor
  · rintro ⟨h100, -⟩
    have := (le_div_iff₀ h).mp (by linarith : (1 : ℚ) ≤ bal / target)
    linarith
  · intro hb
    refine ⟨?_, le_refl _⟩
    have h1 : (1 : ℚ) ≤ bal / target := (le_div_iff₀ h).mpr (by linarith)
    linarith

/-- C6 witness: instantiated at the spec scenario target 1000 with
balances 950 (not achieved) and 1000 (achieved). -/
theorem isAchieved_iff_balance_reaches_target_witness :
    isAchieved 950 1000 = false ∧ isAchieved 1000 1000 = true := by
  constructor
  · have h := isAchieved_iff_balance_reaches_target 950 1000 (by norm_num)
    simp only [Bool.eq_false_iff]
    intro hc
    exact absurd (h.mp hc) (by norm_num)
  · exact (isAchieved_iff_balance_reaches_target 1000 1000 (by norm_num)).mpr
      (by norm_num)

/-- `needle` starts the list `hay` (the matching step of JS
`String.prototype.includes` at one position). -/
def leadsList : List Char → List Char → Bool
  | [], _ => true
  | _ :: _, [] => false
  | a :: as, b :: bs => a == b && leadsList as bs

/-- `occursIn needle hay`: `needle` occurs contiguously somewhere in
`hay`; the embedding of JS `String.prototype.includes` on the underlying
character lists. -/
def occursIn : List Char → List Char → Bool
  | n, [] => n.isEmpty
  | n, h :: t => leadsList n (h :: t) || occursIn n t

/-- JS `haystack.includes(needle)` on strings. -/
def strIncludes (hay needle : String) : Bool :=
  occursIn needle.toList hay.toList

/-- The embedding of the JS `String.prototype.toLowerCase` builtin:
lowercase each character (defined on the character list directly so that
it computes by `rfl`/`decide`). -/
def toLowerStr (s : String) : String :=
  String.mk (s.data.map Char.toLower)

/-- The search predicate of `filteredTransactions` (App.tsx lines
178-181): the lowercased query is a substring of the lowercased
description or of the lowercased category. -/
def matchesSearch (searchTerm : String) (t : Transaction) : Bool :=
  strIncludes (toLowerStr t.description) (toLowerStr searchTerm) ||
    strIncludes (toLowerStr t.category) (toLowerStr searchTerm)

/-- `filteredTransactions` (App.tsx lines 178-181):
`transactions.filter(t => ...includes... || ...includes...)`. -/
def filteredTransactions (searchTerm : String)
    (transactions : List Transaction) : List Transaction :=
  transactions.filter (matchesSearch searchTerm)

lemma leadsList_iff_append (n h : List Char) :
    leadsList n h = true ↔ ∃ s, h = n ++ s := by
  induction n generalizing h with
  | nil => simp [leadsList]
  | cons a as ih =>
    cases h with
    | nil =>
      simp only [leadsList, Bool.false_eq_true, false_iff]
      rintro ⟨s, hs⟩
      exact absurd hs (by simp)
    | cons b bs =>
      simp only [leadsList, Bool.and_eq_true, beq_iff_eq, ih]
      constructor
      · rintro ⟨rfl, s, rfl⟩
        exact ⟨s, rfl⟩
      · rintro ⟨s, hs⟩
        rw [List.cons_append] at hs
        injection hs with h1 h2
        exact ⟨h1.symm, s, h2⟩

lemma occursIn_iff_append (n h : List Char) :
    occursIn n h = true ↔ ∃ p s, h = p ++ n ++ s := by
  induction h with
  | nil =>
    simp only [occursIn, List.isEmpty_iff]
    constructor
    · rintro rfl
      exact ⟨[], [], rfl⟩
    · rintro ⟨p, s, hs⟩
      have h1 := List.append_eq_nil.mp hs.symm
      exact (List.append_eq_nil.mp h1.1).2
  | cons c t ih =>
    simp only [occursIn, Bool.or_eq_true, leadsList_iff_append, ih]
    constructor
    · rintro (⟨s, hs⟩ | ⟨p, s, rfl⟩)
      · exact ⟨[], s, by simpa using hs⟩
      · exact ⟨c :: p, s, rfl⟩
    · rintro ⟨p, s, hs⟩
      cases p with
      | nil => exact Or.inl ⟨s, by simpa using hs⟩
      | cons d ds =>
        right
        refine ⟨ds, s, ?_⟩
        rw [List.cons_append, List.cons_append, List.cons.injEq] at hs
        exact hs.2

lemma occursIn_nil_left (h : List Char) : occursIn [] h = true := by
  induction h with
  | nil => rfl
  | cons c t ih => simp [occursIn, leadsList]

/-- C4: the search filter returns exactly the order-preserving
subsequence of transactions whose description or category contains the
query case-insensitively: membership is characterised by the match
predicate, the result is a sublist of the input, the empty query returns
the whole list, filtering is idempotent, and `occursIn` really is the
contiguous-substring relation. -/
theorem filteredTransactions_characterisation (searchTerm : String)
    (ts : List Transaction) :
    (∀ t, t ∈ filteredTransactions searchTerm ts ↔
        t ∈ ts ∧ matchesSearch searchTerm t = true) ∧
    List.Sublist (filteredTransactions searchTerm ts) ts ∧
    filteredTransactions "" ts = ts ∧
    filteredTransactions searchTerm (filteredTransactions searchTerm ts) =
      filteredTransactions searchTerm ts ∧
    (∀ n h : List Char, occursIn n h = true ↔ ∃ p s, h = p ++ n ++ s) := by
  refine ⟨?_, ?_, ?_, ?_, occursIn_iff_append⟩
  · intro t
    simp [filteredTransactions, List.mem_filter]
  · exact List.filter_sublist ts
  · refine List.filter_eq_self.mpr fun t _ => ?_
    have he : (toLowerStr "").data = ([] : List Char) := rfl
    simp [matchesSearch, strIncludes, he, occursIn_nil_left]
  · refine List.filter_eq_self.mpr fun t ht => ?_
    exact (List.mem_filter.mp ht).2

/-- JS `Array.prototype.join(sep)`: empty array gives `""`, otherwise the
elements interleaved with the separator. -/
def jsJoin (sep : String) : List String → String
  | [] => ""
  | [x] => x
  | x :: xs => x ++ sep ++ jsJoin sep xs

/-- The string a JS template/`join` renders for a transaction type. -/
def typeLabel : TxType → String
  | TxType.income => "income"
  | TxType.expense => "expense"

/-- The `headers` array of `exportToCSV` (App.tsx line 153). -/
def csvHeaders : List String :=
  ["Date", "Description", "Category", "Type", "Amount"]

/-- One element of the `csvData` array (App.tsx lines 154-160): the five
cell values of a transaction. `fmtDate` embeds the external
`new Date(t.date).toLocaleDateString()` collaborator and `fmtAmount` the
JS number-to-string coercion performed by `join`. -/
def csvRow (fmtDate : String → String) (fmtAmount : ℚ → String)
    (t : Transaction) : List String :=
  [fmtDate t.date, t.description, t.category, typeLabel t.type,
    fmtAmount t.amount]

/-- `csvContent` (App.tsx lines 162-165): the joined header row followed
by the comma-joined data rows, all newline-joined. -/
def csvContent (fmtDate : String → String) (fmtAmount : ℚ → String)
    (ts : List Transaction) : String :=
  jsJoin "\n"
    (jsJoin "," csvHeaders ::
      ts.map (fun t => jsJoin "," (csvRow fmtDate fmtAmount t)))

/-- `exportToCSV` (App.tsx lines 150-176): returns early offering no file
when the transaction list is empty (`none`), otherwise offers a file
holding `csvContent` (`some`); the blob/anchor plumbing is the external
file-save collaborator. -/
def exportToCSV (fmtDate : String → String) (fmtAmount : ℚ → String)
    (ts : List Transaction) : Option String :=
  if ts.length = 0 then none
  else some (csvContent fmtDate fmtAmount ts)

/-- Plain concatenation of a list of strings (used to state the
serializer's output shape independently of `jsJoin`). -/
def concatAll : List String → String
  | [] => ""
  | s :: rest => s ++ concatAll rest

lemma jsJoin_cons (sep x : String) (xs : List String) :
    jsJoin sep (x :: xs) = x ++ concatAll (xs.map fun y => sep ++ y) := by
  induction xs generalizing x with
  | nil => simp [jsJoin, concatAll]
  | cons y ys ih =>
    show x ++ sep ++ jsJoin sep (y :: ys) =
      x ++ concatAll ((y :: ys).map fun z => sep ++ z)
    rw [ih y]
    simp [concatAll, String.append_assoc]

/-- C3: the export is a no-op on the empty list, offers exactly
`csvContent` on a non-empty list, and `csvContent` is the fixed header
`Date,Description,Category,Type,Amount` followed, for each transaction in
input order, by a newline and its five cells (locale date, description,
category, type, plain amount) comma-joined with no escaping. -/
theorem exportToCSV_shape (fmtDate : String → String)
    (fmtAmount : ℚ → String) (ts : List Transaction) :
    exportToCSV fmtDate fmtAmount [] = none ∧
    (ts ≠ [] →
      exportToCSV fmtDate fmtAmount ts =
        some (csvContent fmtDate fmtAmount ts)) ∧
    csvContent fmtDate fmtAmount [] =
      "Date,Description,Category,Type,Amount" ∧
    csvContent fmtDate fmtAmount ts =
      "Date,Description,Category,Type,Amount" ++
        concatAll (ts.map fun t =>
          "\n" ++ fmtDate t.date ++ "," ++ t.description ++ "," ++
            t.category ++ "," ++ typeLabel t.type ++ "," ++
            fmtAmount t.amount) := by
  refine ⟨rfl, ?_, rfl, ?_⟩
  · intro hne
    simp [exportToCSV, List.length_eq_zero, hne]
  · rw [csvContent, jsJoin_cons]
    have hh : jsJoin "," csvHeaders = "Date,Description,Category,Type,Amount" :=
      rfl
    rw [hh, List.map_map]
    congr 1
    refine congrArg concatAll (List.map_congr_left fun t _ => ?_)
    simp [Function.comp, csvRow, jsJoin, String.append_assoc]

/-- C3 witness: the theorem instantiated on a singleton list (with the
identity date formatter and a constant amount formatter), yielding the
header plus one row. -/
theorem exportToCSV_shape_witness :
    exportToCSV id (fun _ => "50")
        [{ id := "t1", description := "Coffee", amount := 50,
           category := "Food", date := "2024-01-02",
           type := TxType.expense, created_at := "2024-01-02" }] =
      some "Date,Description,Category,Type,Amount\n2024-01-02,Coffee,Food,expense,50" := by
  have h := exportToCSV_shape id (fun _ => "50")
    [{ id := "t1", description := "Coffee", amount := 50,
       category := "Food", date := "2024-01-02",
       type := TxType.expense, created_at := "2024-01-02" }]
  rw [h.2.1 (by simp), h.2.2.2]
  rfl

/-- The component state of `App` (App.tsx lines 24-38): the record store
(transactions, goals), the loading flag, the transaction form fields, the
goal form fields and the search box. Each `useState` cell becomes a
field; `setX` becomes a functional update. -/
structure AppState where
  transactions : List Transaction
  goals : List SavingGoal
  isLoading : Bool
  description : String
  amount : String
  category : String
  type : TxType
  goalName : String
  goalTarget : String
  searchTerm : String
deriving DecidableEq, Repr

/-- `fetchData` (App.tsx lines 44-62) after the remote round-trip: on
success install the two fetched lists (the `|| []` null-guard is folded
into the lists), on a thrown error only log; either way `isLoading` ends
false via the `finally` block. -/
def fetchData (st : AppState)
    (res : Except Unit (List Transaction × List SavingGoal)) : AppState :=
  match res with
  | Except.error _ => { st with isLoading := false }
  | Except.ok (ts, gs) =>
      { st with transactions := ts, goals := gs, isLoading := false }

/-- `addTransaction` (App.tsx lines 64-92) after the remote round-trip.
The guard `if (!description || !amount) return` rejects exactly empty
form strings (the remote call is then never issued). `res` is the
outcome of `supabase...insert([...]).select()`: `.error` a thrown or
returned error (caught and logged), `.ok none` a null `data`, and
`.ok (some row)` a returned row `data[0]`; only in the last case is the
row prepended and are the description and amount fields cleared. -/
def addTransaction (st : AppState) (res : Except Unit (Option Transaction)) :
    AppState :=
  if st.description = "" ∨ st.amount = "" then st
  else
    match res with
    | Except.error _ => st
    | Except.ok none => st
    | Except.ok (some row) =>
        { st with transactions := row :: st.transactions,
                  description := "", amount := "" }

/-- `deleteTransaction` (App.tsx lines 94-107) after the remote
round-trip: on success drop every transaction with the given id, on
error only log. -/
def deleteTransaction (st : AppState) (i : String) (res : Except Unit Unit) :
    AppState :=
  match res with
  | Except.error _ => st
  | Except.ok _ =>
      { st with transactions := st.transactions.filter fun t => t.id != i }

/-- `addGoal` (App.tsx lines 109-134) after the remote round-trip: the
guard rejects exactly empty form strings; on a returned row the goal is
appended at the end and the goal form fields are cleared; on error an
alert is shown (external) and state is unchanged. -/
def addGoal (st : AppState) (res : Except Unit (Option SavingGoal)) :
    AppState :=
  if st.goalName = "" ∨ st.goalTarget = "" then st
  else
    match res with
    | Except.error _ => st
    | Except.ok none => st
    | Except.ok (some row) =>
        { st with goals := st.goals ++ [row],
                  goalName := "", goalTarget := "" }

/-- `deleteGoal` (App.tsx lines 136-148) after the remote round-trip. -/
def deleteGoal (st : AppState) (i : String) (res : Except Unit Unit) :
    AppState :=
  match res with
  | Except.error _ => st
  | Except.ok _ => { st with goals := st.goals.filter fun g => g.id != i }

/-- C5: a failed remote call leaves the whole in-memory state unchanged
for each of the four mutating operations; the local update happens only
after a successful response. -/
theorem remote_failure_leaves_state_unchanged (st : AppState) (e : Unit)
    (i j : String) :
    addTransaction st (Except.error e) = st ∧
    deleteTransaction st i (Except.error e) = st ∧
    addGoal st (Except.error e) = st ∧
    deleteGoal st j (Except.error e) = st := by
  refine ⟨?_, rfl, ?_, rfl⟩ <;>
    · first
      | (unfold addTransaction; split <;> rfl)
      | (unfold addGoal; split <;> rfl)

/-- C9: deleting an id that no transaction in the local set carries is a
no-op (the embedding is a total function, so no exception is possible):
on remote success the filter removes nothing, and on remote failure no
local update is applied; the state is unchanged either way. -/
theorem delete_missing_id_noop (st : AppState) (i : String) (e : Unit)
    (h : ∀ t ∈ st.transactions, t.id ≠ i) :
    deleteTransaction st i (Except.ok ()) = st ∧
    deleteTransaction st i (Except.error e) = st := by
  constructor
  · show { st with transactions := st.transactions.filter fun t => t.id != i }
        = st
    have hf : st.transactions.filter (fun t => t.id != i) = st.transactions :=
      List.filter_eq_self.mpr fun t ht => by simpa using h t ht
    rw [hf]
  · rfl

/-- A sample stored transaction row used by concrete witnesses. -/
def txCoffee : Transaction :=
  { id := "t1", description := "Coffee", amount := 50, category := "Food",
    date := "2024-01-02T10:00:00.000Z", type := TxType.expense,
    created_at := "2024-01-02T10:00:00.000Z" }

/-- A sample application state holding `txCoffee` and a filled-in
transaction form, used by concrete witnesses. -/
def stSample : AppState :=
  { transactions := [txCoffee], goals := [], isLoading := false,
    description := "Tea", amount := "30", category := "Food",
    type := TxType.expense, goalName := "", goalTarget := "",
    searchTerm := "" }

/-- C9 witness: deleting the absent id `"zzz"` from a one-element store
leaves the state intact on success and on failure. -/
theorem delete_missing_id_noop_witness :
    deleteTransaction stSample "zzz" (Except.ok ()) = stSample ∧
    deleteTransaction stSample "zzz" (Except.error ()) = stSample :=
  delete_missing_id_noop stSample "zzz" () (by decide)

/-- C10: `addTransaction` clears the description and amount fields
exactly on a successful insert that returns a row; a validation
rejection (an empty description or amount) leaves the whole state
unchanged, a remote error or a null response leaves the form fields
unchanged, and the category and type selections survive every outcome. -/
theorem addTransaction_form_field_effects (st : AppState)
    (res : Except Unit (Option Transaction)) (row : Transaction) (e : Unit) :
    (st.description ≠ "" ∧ st.amount ≠ "" →
      (addTransaction st (Except.ok (some row))).description = "" ∧
      (addTransaction st (Except.ok (some row))).amount = "") ∧
    (st.description = "" ∨ st.amount = "" → addTransaction st res = st) ∧
    (addTransaction st (Except.error e)).description = st.description ∧
    (addTransaction st (Except.error e)).amount = st.amount ∧
    (addTransaction st (Except.ok none)).description = st.description ∧
    (addTransaction st (Except.ok none)).amount = st.amount ∧
    (addTransaction st res).category = st.category ∧
    (addTransaction st res).type = st.type := by
  by_cases hv : st.description = "" ∨ st.amount = ""
  · refine ⟨fun hc => absurd hv (by tauto), fun _ => ?_, ?_, ?_, ?_, ?_, ?_, ?_⟩ <;>
      simp [addTransaction, hv]
  · refine ⟨fun _ => ?_, fun hc => absurd hc hv, ?_, ?_, ?_, ?_, ?_, ?_⟩ <;>
      · rcases res with _ | r
        · simp [addTransaction, hv]
        · rcases r with _ | row' <;> simp [addTransaction, hv]

/-- C10 witness: on the sample filled-in form, a successful insert clears
description and amount while keeping the category and type. -/
theorem addTransaction_form_field_effects_witness :
    ((addTransaction stSample (Except.ok (some txCoffee))).description = "" ∧
      (addTransaction stSample (Except.ok (some txCoffee))).amount = "") ∧
    (addTransaction stSample (Except.ok (some txCoffee))).category =
      stSample.category ∧
    (addTransaction stSample (Except.ok (some txCoffee))).type =
      stSample.type := by
  have h := addTransaction_form_field_effects stSample
    (Except.ok (some txCoffee)) txCoffee ()
  exact ⟨h.1 ⟨by decide, by decide⟩, h.2.2.2.2.2.2.1, h.2.2.2.2.2.2.2⟩

/-- Chronological comparison of ISO-8601 timestamp strings: lexicographic
order on the character list (ISO-8601 timestamps in a fixed format
compare chronologically this way; it models the DB `order(...)`
comparisons). -/
def isoLe (a b : String) : Prop :=
  a.data ≤ b.data

instance (a b : String) : Decidable (isoLe a b) :=
  inferInstanceAs (Decidable (a.data ≤ b.data))

/-- The display invariant for the transaction list: sorted by `date`
descending. -/
def TxSortedDesc (ts : List Transaction) : Prop :=
  List.Pairwise (fun a b => isoLe b.date a.date) ts

/-- The display invariant for the goal list: sorted by `created_at`
ascending. -/
def GoalsSortedAsc (gs : List SavingGoal) : Prop :=
  List.Pairwise (fun a b => isoLe a.created_at b.created_at) gs

instance (ts : List Transaction) : Decidable (TxSortedDesc ts) := by
  unfold TxSortedDesc
  exact inferInstance

instance (gs : List SavingGoal) : Decidable (GoalsSortedAsc gs) := by
  unfold GoalsSortedAsc
  exact inferInstance

/-- C7: every store operation preserves the ordering invariants. A fetch
installs the remotely ordered lists (sorted as delivered); inserting a
transaction prepends a row whose date (the current time) is at least
every stored date; inserting a goal appends a row whose creation time is
at least every stored one; deletions filter, and a sublist of a sorted
list is sorted. -/
theorem operations_preserve_ordering (st : AppState)
    (fts : List Transaction) (fgs : List SavingGoal)
    (t : Transaction) (g : SavingGoal) (i j : String)
    (hts : TxSortedDesc st.transactions) (hgs : GoalsSortedAsc st.goals)
    (hfts : TxSortedDesc fts) (hfgs : GoalsSortedAsc fgs)
    (ht : ∀ u ∈ st.transactions, isoLe u.date t.date)
    (hg : ∀ u ∈ st.goals, isoLe u.created_at g.created_at) :
    TxSortedDesc (fetchData st (Except.ok (fts, fgs))).transactions ∧
    GoalsSortedAsc (fetchData st (Except.ok (fts, fgs))).goals ∧
    TxSortedDesc (addTransaction st (Except.ok (some t))).transactions ∧
    TxSortedDesc (deleteTransaction st i (Except.ok ())).transactions ∧
    GoalsSortedAsc (addGoal st (Except.ok (some g))).goals ∧
    GoalsSortedAsc (deleteGoal st j (Except.ok ())).goals := by
  refine ⟨hfts, hfgs, ?_, ?_, ?_, ?_⟩
  · unfold addTransaction
    split
    · exact hts
    · exact List.pairwise_cons.mpr ⟨ht, hts⟩
  · exact List.Pairwise.sublist (List.filter_sublist _) hts
  · unfold addGoal
    split
    · exact hgs
    · refine List.pairwise_append.mpr
        ⟨hgs, List.pairwise_singleton _ _, fun a ha b hb => ?_⟩
      rw [List.mem_singleton] at hb
      subst hb
      exact hg a ha
  · exact List.Pairwise.sublist (List.filter_sublist _) hgs

/-- A second sample stored transaction, dated after `txCoffee`. -/
def txSalary : Transaction :=
  { id := "t2", description := "Salary", amount := 1000,
    category := "Salary", date := "2024-01-03T09:00:00.000Z",
    type := TxType.income, created_at := "2024-01-03T09:00:00.000Z" }

/-- A freshly inserted transaction row, dated after both samples. -/
def txNew : Transaction :=
  { id := "t3", description := "Tea", amount := 30, category := "Food",
    date := "2024-01-04T12:00:00.000Z", type := TxType.expense,
    created_at := "2024-01-04T12:00:00.000Z" }

/-- A sample stored goal. -/
def goalBike : SavingGoal :=
  { id := "g1", name := "Bike", target_amount := 5000,
    created_at := "2024-01-01T00:00:00.000Z" }

/-- A freshly inserted goal row, created after `goalBike`. -/
def goalTrip : SavingGoal :=
  { id := "g2", name := "Trip", target_amount := 9000,
    created_at := "2024-01-05T00:00:00.000Z" }

/-- A sample state whose collections satisfy both ordering invariants
and whose forms are filled in. -/
def stOrdered : AppState :=
  { transactions := [txSalary, txCoffee], goals := [goalBike],
    isLoading := false, description := "Tea", amount := "30",
    category := "Food", type := TxType.expense, goalName := "Trip",
    goalTarget := "9000", searchTerm := "" }

/-- C7 witness: on a concrete ordered state, a prepend-insert keeps the
transactions date-descending and an append-insert keeps the goals
creation-ascending. -/
theorem operations_preserve_ordering_witness :
    TxSortedDesc (addTransaction stOrdered
      (Except.ok (some txNew))).transactions ∧
    GoalsSortedAsc (addGoal stOrdered (Except.ok (some goalTrip))).goals := by
  have h := operations_preserve_ordering stOrdered [] [] txNew goalTrip
    "x" "y" (by decide) (by decide) (by decide) (by decide) (by decide)
    (by decide)
  exact ⟨h.2.2.1, h.2.2.2.2.1⟩

/-- Value of a decimal digit string read left to right. -/
def digitsToNat (cs : List Char) : ℕ :=
  cs.foldl (fun n c => n * 10 + (c.toNat - 48)) 0

/-- Unsigned decimal parsing: a non-empty digit run, optionally followed
by a point and a digit run. -/
def parseUnsignedDec (cs : List Char) : Option ℚ :=
  let ip := cs.takeWhile Char.isDigit
  if ip = [] then none
  else
    match cs.dropWhile Char.isDigit with
    | [] => some ((digitsToNat ip : ℕ) : ℚ)
    | '.' :: fs =>
        if fs.all Char.isDigit then
          some ((digitsToNat ip : ℚ) +
            (digitsToNat fs : ℚ) / ((10 : ℚ) ^ fs.length))
        else none
    | _ => none

/-- Modelled from the spec: the JS `parseFloat` builtin (an external
language primitive, not repository code), restricted to well-formed
decimal inputs as produced by the numeric form inputs; `none` models
`NaN`. -/
def parseFloat (s : String) : Option ℚ :=
  match s.data with
  | '-' :: cs => (parseUnsignedDec cs).map Neg.neg
  | cs => parseUnsignedDec cs

/-- A state whose goal form holds the name `"Emergency"` and the target
string `"0"`. -/
def stZeroTarget : AppState :=
  { transactions := [], goals := [], isLoading := false, description := "",
    amount := "", category := "Food", type := TxType.expense,
    goalName := "Emergency", goalTarget := "0", searchTerm := "" }

/-- The goal row the server returns for that submission: the echoed
payload `{name: goalName, target_amount: parseFloat(goalTarget)}` with an
assigned id and creation time. -/
def goalZero : SavingGoal :=
  { id := "g0", name := "Emergency", target_amount := 0,
    created_at := "2024-01-01T00:00:00.000Z" }

/-- C8: nothing stops a zero target from reaching the progress division.
The only goal-creation guard rejects just empty strings, so the form
value `"0"` passes and parses to 0; the submission installs a goal whose
`target_amount` is 0; and the progress computation divides the balance
by that `target_amount` with no zero guard (in this rational model the
division totalises to 0, where JS produces Infinity or NaN — the point
established is that the division is reached with divisor 0). -/
theorem zero_target_reaches_division :
    ¬(stZeroTarget.goalName = "" ∨ stZeroTarget.goalTarget = "") ∧
    parseFloat stZeroTarget.goalTarget = some 0 ∧
    goalZero.target_amount = 0 ∧
    (addGoal stZeroTarget (Except.ok (some goalZero))).goals = [goalZero] ∧
    (∀ bal : ℚ,
      progressRaw bal goalZero.target_amount = min (bal / 0 * 100) 100) := by
  exact ⟨by decide, by decide, rfl, by decide, fun bal => rfl⟩
